import Mathlib

/-!
Verification of the HelloSales pipeline orchestration engine against its
specification.  The stage implementations (`InputGuardStage`, `OutputGuardStage`),
the error taxonomy and the configuration constants are embedded from
`src/project/BACKEND_REBUILD_PLAN.md`; the stageflow scheduler, interceptors and
event-sink plumbing are library code not present in the repository and are
modelled from the specification where noted.
-/

namespace HelloSales

/-- Stage result status, from the spec data model: OK, SKIP, CANCEL, FAIL. -/
inductive StageStatus
  | ok
  | skip
  | cancel
  | fail
  deriving DecidableEq

/-- Stage kind, from the source `StageKind`: GUARD, ENRICH, TRANSFORM, WORK. -/
inductive StageKind
  | guard
  | enrich
  | transform
  | work
  deriving DecidableEq

/-- Overall run status: SUCCESS, CANCELLED, FAILED. -/
inductive RunStatus
  | success
  | cancelled
  | failed
  deriving DecidableEq

/-- Free-form payload values carried in stage outputs (Python dict values). -/
inductive Value
  | str (s : String)
  | bool (b : Bool)
  | num (n : Nat)
  | null
  deriving DecidableEq

/-- Context Snapshot, embedded from the `ContextSnapshot` construction in
`chat_service.process_message`: per-run identity plus caller input. -/
structure ContextSnapshot where
  pipeline_run_id : Nat
  request_id : Nat
  session_id : Option Nat
  user_id : Option Nat
  org_id : Option Nat
  interaction_id : Option Nat
  topology : String
  execution_mode : String
  input_text : Option String
  messages : List (String × String)
  deriving DecidableEq

/-- Stage output as returned by a stage's `execute`, from the source
`StageOutput` (`ok(**data)`, `skip(reason)`, `cancel(reason, data)`,
`fail(error, data)`). -/
structure StageOutput where
  status : StageStatus
  reason : String
  data : List (String × Value)
  retryable : Bool
  deriving DecidableEq

def StageOutput.ok (data : List (String × Value)) : StageOutput :=
  ⟨StageStatus.ok, "", data, false⟩

def StageOutput.skip (reason : String) : StageOutput :=
  ⟨StageStatus.skip, reason, [], false⟩

def StageOutput.cancel (reason : String) (data : List (String × Value)) : StageOutput :=
  ⟨StageStatus.cancel, reason, data, false⟩

def StageOutput.fail (error : String) (data : List (String × Value)) : StageOutput :=
  ⟨StageStatus.fail, error, data, false⟩

/-- Result of a guardrail check, from the source `guard_service` results
(`result.is_safe`, `result.reason`, `result.category`). -/
structure GuardCheckResult where
  is_safe : Bool
  reason : String
  category : String
  deriving DecidableEq

/-- Python whitespace characters stripped by `str.strip()`. -/
def isPySpace (c : Char) : Bool :=
  c = ' ' || c = '\t' || c = '\n' || c = '\r' || c = '\x0b' || c = '\x0c'

/-- Embedding of Python `str.strip()`: drop whitespace from both ends. -/
def pyStrip (s : String) : String :=
  String.mk (((s.toList.dropWhile isPySpace).reverse.dropWhile isPySpace).reverse)

/-- Association lookup in a payload bag (Python `dict` access). -/
def lookupValue : List (String × Value) → String → Option Value
  | [], _ => none
  | p :: rest, k => if p.1 = k then some p.2 else lookupValue rest k

/-- Python `inputs.get(key, default)` for a string-valued key. -/
def getStringInput (bag : List (String × Value)) (k : String) (dflt : String) : String :=
  match lookupValue bag k with
  | some (Value.str s) => s
  | _ => dflt

namespace InputGuardStage

/-- Embedded from `InputGuardStage.execute` in the source: the resolved
`input_text` (`inputs.snapshot.input_text if inputs else ctx.snapshot.input_text`)
is taken as the argument; `check_input` is the guard service call. -/
def execute (input_text : Option String) (check_input : String → GuardCheckResult) :
    StageOutput :=
  match input_text with
  | none =>
      StageOutput.cancel "Empty input"
        [("blocked", Value.bool true), ("reason", Value.str "empty_input")]
  | some t =>
      if t = "" ∨ pyStrip t = "" then
        StageOutput.cancel "Empty input"
          [("blocked", Value.bool true), ("reason", Value.str "empty_input")]
      else
        let result := check_input t
        if result.is_safe = false then
          StageOutput.cancel ("Input blocked: " ++ result.reason)
            [("blocked", Value.bool true), ("reason", Value.str result.reason)]
        else
          StageOutput.ok [("validated", Value.bool true), ("input_text", Value.str t)]

end InputGuardStage

/-- The fixed replacement text used by the output guard, from the source. -/
def outputGuardReplacement : String := "I apologize, but I cannot provide that response."

namespace OutputGuardStage

/-- The response read by the output guard:
`inputs.get("response", "") if inputs else ""`, embedded from the source. -/
def responseOf (inputs : Option (List (String × Value))) : String :=
  match inputs with
  | some bag => getStringInput bag "response" ""
  | none => ""

/-- Embedded from `OutputGuardStage.execute` in the source: an unsafe response is
replaced with a fixed safe response (still an OK result) instead of cancelling. -/
def execute (inputs : Option (List (String × Value)))
    (check_output : String → GuardCheckResult) : StageOutput :=
  let response := responseOf inputs
  let result := check_output response
  if result.is_safe = false then
    StageOutput.ok
      [("response", Value.str outputGuardReplacement),
       ("filtered", Value.bool true),
       ("filter_reason", Value.str result.reason)]
  else
    StageOutput.ok [("response", Value.str response), ("validated", Value.bool true)]

end OutputGuardStage

/-- Stage Definition, from the spec data model and `Pipeline().with_stage(...)` in
`create_chat_pipeline`: a name, a declared kind, and declared dependency names. -/
structure StageSpec where
  name : String
  kind : StageKind
  deps : List String
  deriving DecidableEq

/-- Terminal Stage Result as recorded by the scheduler, from the spec data model:
status, reason, payload, retryability, a duration measurement, whether the
CANCEL was issued by cascade (represented distinctly per the spec's error
taxonomy), and logical start/completion timestamps. -/
structure StageResult where
  status : StageStatus
  reason : String
  payload : List (String × Value)
  retryable : Bool
  durationMs : Nat
  cascaded : Bool
  startedAt : Option Nat
  finishedAt : Nat
  deriving DecidableEq

/-- Lookup of a stage's result in the per-run result map (keyed by stage name,
first entry wins; entries are append-only). -/
def findResult : List (String × StageResult) → String → Option StageResult
  | [], _ => none
  | p :: rest, n => if p.1 = n then some p.2 else findResult rest n

/-- Status of the recorded result of a stage, if any. -/
def resultStatusOf (results : List (String × StageResult)) (n : String) :
    Option StageStatus :=
  (findResult results n).map (fun r => r.status)

/-- Logical start timestamp of a stage's recorded result, if it executed. -/
def startTimeOf (results : List (String × StageResult)) (n : String) : Option Nat :=
  match findResult results n with
  | some r => r.startedAt
  | none => none

/-- Logical completion timestamp of a stage's recorded result, if any. -/
def finishTimeOf (results : List (String × StageResult)) (n : String) : Option Nat :=
  (findResult results n).map (fun r => r.finishedAt)

/-- A terminated-without-success status (FAIL or CANCEL). -/
def badStatus : StageStatus → Bool
  | StageStatus.cancel => true
  | StageStatus.fail => true
  | _ => false

/-- A status counting towards overall success (OK or SKIP). -/
def isOkOrSkip : StageStatus → Bool
  | StageStatus.ok => true
  | StageStatus.skip => true
  | _ => false

def isGuard : StageKind → Bool
  | StageKind.guard => true
  | _ => false

def isCancelStatus : StageStatus → Bool
  | StageStatus.cancel => true
  | _ => false

def isFailStatus : StageStatus → Bool
  | StageStatus.fail => true
  | _ => false

/-- Modelled from the spec: the stage input view.  Construction of a stage's
input view is a pure function of (genesis snapshot, dependency result payloads);
the stageflow context/working-view code is not in the repository. -/
structure InputView where
  snapshot : ContextSnapshot
  inputs : List (String × Value)
  deriving DecidableEq

/-- Accumulated outputs of the declared dependencies, in declaration order. -/
def gatherInputs (results : List (String × StageResult)) : List String → List (String × Value)
  | [] => []
  | d :: ds =>
      (match findResult results d with
       | some r => r.payload
       | none => []) ++ gatherInputs results ds

/-- Modelled from the spec: build the input view a stage executes against from
exactly the genesis snapshot and its declared dependencies' result payloads. -/
def mkInputView (snapshot : ContextSnapshot) (deps : List String)
    (results : List (String × StageResult)) : InputView :=
  ⟨snapshot, gatherInputs results deps⟩

/-- Outcome of invoking a stage body through the interceptor chain: either a
returned `StageOutput` or an uncaught exception, each with the elapsed time. -/
inductive ExecResult
  | out (o : StageOutput) (durationMs : Nat)
  | exn (msg : String) (retryable : Bool) (durationMs : Nat)
  deriving DecidableEq

/-- Scheduler state during a run: the append-only result map and a logical clock
ordering starts and completions. -/
structure RunState where
  results : List (String × StageResult)
  clock : Nat
  deriving DecidableEq

/-- Reason attached to a cascading cancellation, referencing the upstream stage. -/
def cascadeReason (d : String) : String :=
  "Cancelled: dependency " ++ d ++ " failed or was cancelled (cascading cancellation)"

/-- Result recorded for a stage cancelled by cascade: CANCEL, never started. -/
def cascadeCancelResult (d : String) (clk : Nat) : StageResult :=
  ⟨StageStatus.cancel, cascadeReason d, [], false, 0, true, none, clk⟩

/-- Reason wrapped around an exception uncaught by the stage itself,
recording the stage name. -/
def failWrapReason (stage msg : String) : String :=
  "Stage " ++ stage ++ " raised an uncaught exception: " ++ msg

/-- Result recorded when a stage body raises: a FAIL Stage Result capturing the
stage name, elapsed time, and the retryable flag. -/
def exnFailResult (stage msg : String) (retr : Bool) (dur clk : Nat) : StageResult :=
  ⟨StageStatus.fail, failWrapReason stage msg, [], retr, dur, false, some clk, clk + 1⟩

/-- Result recorded for a returned stage output. -/
def resultOfOutput (o : StageOutput) (dur clk : Nat) : StageResult :=
  ⟨o.status, o.reason, o.data, o.retryable, dur, false, some clk, clk + 1⟩

/-- Result recorded when a declared dependency was never scheduled (cannot occur
in a validated pipeline; kept so the scheduler is total). -/
def missingDepResult (clk : Nat) : StageResult :=
  ⟨StageStatus.cancel, "Cancelled: dependency was not scheduled", [], false, 0, true, none, clk⟩

/-- First declared dependency with a terminal FAIL/CANCEL result, if any. -/
def findBadDep (results : List (String × StageResult)) : List String → Option String
  | [] => none
  | d :: ds =>
      match findResult results d with
      | some r => if badStatus r.status then some d else findBadDep results ds
      | none => findBadDep results ds

/-- Modelled from the spec: the DAG scheduler's treatment of one stage whose
dependencies have all resolved — cancel without executing when a dependency
FAILed or was CANCELled, otherwise execute the stage body and capture its
outcome (wrapping an uncaught exception into a FAIL result).  The stageflow
graph runner is not in the repository. -/
def stepResult (behaviors : String → InputView → ExecResult) (snapshot : ContextSnapshot)
    (st : RunState) (s : StageSpec) : StageResult :=
  if s.deps.all (fun d => (findResult st.results d).isSome) then
    match findBadDep st.results s.deps with
    | some d => cascadeCancelResult d st.clock
    | none =>
        match behaviors s.name (mkInputView snapshot s.deps st.results) with
        | ExecResult.out o dur => resultOfOutput o dur st.clock
        | ExecResult.exn msg retr dur => exnFailResult s.name msg retr dur st.clock
  else missingDepResult st.clock

/-- One scheduling step: append the stage's terminal result and advance the
logical clock past its start/completion instants. -/
def stepStage (behaviors : String → InputView → ExecResult) (snapshot : ContextSnapshot)
    (st : RunState) (s : StageSpec) : RunState :=
  ⟨st.results ++ [(s.name, stepResult behaviors snapshot st s)], st.clock + 2⟩

/-- Modelled from the spec: run the stages of a validated pipeline in an order
respecting the dependency DAG (the stage list of a validated Pipeline Definition
is topologically ordered). -/
def runStages (behaviors : String → InputView → ExecResult) (snapshot : ContextSnapshot) :
    List StageSpec → RunState → RunState
  | [], st => st
  | s :: rest, st => runStages behaviors snapshot rest (stepStage behaviors snapshot st s)

/-- A GUARD-kind stage whose recorded result is a CANCEL it issued itself
(not a cascaded cancellation). -/
def guardIssuedCancel (stages : List StageSpec) (results : List (String × StageResult)) : Bool :=
  stages.any (fun s =>
    isGuard s.kind &&
      (match findResult results s.name with
       | some r => isCancelStatus r.status && !r.cascaded
       | none => false))

/-- Modelled from the spec: overall run status — SUCCESS if every stage
terminated OK or SKIP; otherwise CANCELLED if the run was externally cancelled
or a GUARD-kind stage issued a cancellation; otherwise FAILED. -/
def computeRunStatus (stages : List StageSpec) (results : List (String × StageResult))
    (externallyCancelled : Bool) : RunStatus :=
  if results.all (fun p => isOkOrSkip p.2.status) then RunStatus.success
  else if externallyCancelled || guardIssuedCancel stages results then RunStatus.cancelled
  else RunStatus.failed

/-- First FAIL entry in the result map: (stage name, reason, retryable). -/
def firstFailed (results : List (String × StageResult)) : Option (String × String × Bool) :=
  results.findSome? (fun p =>
    if isFailStatus p.2.status then some (p.1, p.2.reason, p.2.retryable) else none)

/-- First guard-issued cancellation: (stage name, reason). -/
def firstGuardIssuedCancel (stages : List StageSpec)
    (results : List (String × StageResult)) : Option (String × String) :=
  stages.findSome? (fun s =>
    if isGuard s.kind then
      match findResult results s.name with
      | some r =>
          if isCancelStatus r.status && !r.cascaded then some (s.name, r.reason) else none
      | none => none
    else none)

/-- Modelled from the spec: the human-readable run-level error message attached
to a non-successful run record. -/
def runErrorOf (stages : List StageSpec) (results : List (String × StageResult)) :
    RunStatus → Option String
  | RunStatus.success => none
  | RunStatus.cancelled =>
      some (match firstGuardIssuedCancel stages results with
            | some pr => "Pipeline cancelled: " ++ pr.2
            | none => "Pipeline cancelled")
  | RunStatus.failed =>
      some (match firstFailed results with
            | some pr => "Stage " ++ pr.1 ++ " failed: " ++ pr.2.1
            | none => "Pipeline failed")

/-- Pipeline Run Record: the full result map, the overall status and the
run-level error message. -/
structure RunRecord where
  results : List (String × StageResult)
  status : RunStatus
  runError : Option String
  deriving DecidableEq

/-- Modelled from the spec: one full pipeline run from the genesis snapshot,
producing the finalized Pipeline Run Record. -/
def runPipeline (stages : List StageSpec) (behaviors : String → InputView → ExecResult)
    (snapshot : ContextSnapshot) : RunRecord :=
  let st := runStages behaviors snapshot stages ⟨[], 0⟩
  let status := computeRunStatus stages st.results false
  ⟨st.results, status, runErrorOf stages st.results status⟩

/-- Typed pipeline error surfaced to the caller, from the source error taxonomy
(`StageFailedError`, `PipelineCancelledError`), carrying partial results. -/
inductive PipelineFailure
  | stageFailed (stage : String) (message : String)
      (capturedResults : List (String × StageResult))
  | cancelled (reason : String) (capturedResults : List (String × StageResult))
  deriving DecidableEq

/-- Modelled from the spec: the only outcomes surfaced to the caller — a
successful run record or a single typed pipeline error. -/
def surfaceRun (record : RunRecord) : Except PipelineFailure RunRecord :=
  match record.status with
  | RunStatus.failed =>
      Except.error (PipelineFailure.stageFailed
        (match firstFailed record.results with | some pr => pr.1 | none => "")
        (match record.runError with | some m => m | none => "")
        record.results)
  | RunStatus.cancelled =>
      Except.error (PipelineFailure.cancelled
        (match record.runError with | some m => m | none => "")
        record.results)
  | RunStatus.success => Except.ok record

/-- Dead-letter entry, modelled from the spec: genesis snapshot, first failing
stage, error, retryability, and a retry counter starting at zero. -/
structure DeadLetterEntry where
  snapshot : ContextSnapshot
  firstStage : String
  errorMessage : String
  retryable : Bool
  retryCount : Nat
  deriving DecidableEq

/-- Modelled from the spec: a dead-letter entry is constructed only for a FAILED
run; the dead-letter recovery component is not in the repository. -/
def deadLetterFor (snapshot : ContextSnapshot) (record : RunRecord) :
    Option DeadLetterEntry :=
  match record.status with
  | RunStatus.failed =>
      some ⟨snapshot,
            (match firstFailed record.results with | some pr => pr.1 | none => ""),
            (match firstFailed record.results with | some pr => pr.2.1 | none => ""),
            (match firstFailed record.results with | some pr => pr.2.2 | none => false),
            0⟩
  | _ => none

/-- Wide event sent to the Event Sink (per-stage completion and one per-run
summary), modelled from the spec's Event Sink contract. -/
structure PipeEvent where
  eventType : String
  stage : String
  deriving DecidableEq

/-- Events emitted for a finished run: one stage-completed event per stage plus
the run-completed wide event. -/
def runEvents (record : RunRecord) : List PipeEvent :=
  record.results.map (fun p => ⟨"pipeline.stage.completed", p.1⟩)
    ++ [⟨"pipeline.run.completed", ""⟩]

/-- Modelled from the spec and the source `DbPipelineEventSink.try_emit`:
fire-and-forget emission — each sink failure is caught and logged, never
propagated to the run. -/
def tryEmitAll (sink : PipeEvent → Except String Unit) (events : List PipeEvent) :
    List String :=
  events.filterMap (fun e =>
    match sink e with
    | Except.ok _ => none
    | Except.error m => some m)

/-- A pipeline run together with best-effort event emission: the record is
computed independently of the sink; sink failures only accumulate in the log. -/
def runPipelineWithSink (stages : List StageSpec)
    (behaviors : String → InputView → ExecResult) (snapshot : ContextSnapshot)
    (sink : PipeEvent → Except String Unit) : RunRecord × List String :=
  let record := runPipeline stages behaviors snapshot
  (record, tryEmitAll sink (runEvents record))

/-- Circuit breaker failure threshold, from the source configuration
`CIRCUIT_BREAKER_FAILURE_THRESHOLD=3`. -/
def CIRCUIT_BREAKER_FAILURE_THRESHOLD : Nat := 3

/-- Circuit breaker cool-down, from the source configuration
`CIRCUIT_BREAKER_OPEN_SECONDS=60`. -/
def CIRCUIT_BREAKER_OPEN_SECONDS : Nat := 60

/-- Circuit breaker state per stage identity, modelled from the spec's state
machine: CLOSED (with a consecutive-failure count), OPEN (since a trip time),
HALF_OPEN (one trial allowed). -/
inductive BreakerState
  | closed (consecutiveFailures : Nat)
  | opened (openedAt : Nat)
  | halfOpen
  deriving DecidableEq

/-- Modelled from the spec: state observed at invocation time — an OPEN breaker
whose cool-down has elapsed becomes HALF_OPEN. -/
def breakerObserve (cooldown now : Nat) : BreakerState → BreakerState
  | BreakerState.opened t => if t + cooldown ≤ now then BreakerState.halfOpen else BreakerState.opened t
  | s => s

/-- Outcome of one breaker-guarded invocation: the next state, whether the stage
body was invoked, and whether the call was short-circuited. -/
structure BreakerCall where
  state : BreakerState
  invoked : Bool
  shortCircuited : Bool
  deriving DecidableEq

/-- Modelled from the spec: the transition on one invocation given the observed
state.  CLOSED invokes and counts consecutive failures, tripping OPEN at the
threshold; OPEN short-circuits without invoking; HALF_OPEN performs exactly one
trial whose outcome selects CLOSED or OPEN (cool-down restarted). -/
def breakerInvoke (threshold now : Nat) (bodyFails : Bool) : BreakerState → BreakerCall
  | BreakerState.closed n =>
      if bodyFails then
        if threshold ≤ n + 1 then ⟨BreakerState.opened now, true, false⟩
        else ⟨BreakerState.closed (n + 1), true, false⟩
      else ⟨BreakerState.closed 0, true, false⟩
  | BreakerState.opened t => ⟨BreakerState.opened t, false, true⟩
  | BreakerState.halfOpen =>
      if bodyFails then ⟨BreakerState.opened now, true, false⟩
      else ⟨BreakerState.closed 0, true, false⟩

/-- One complete breaker-guarded call at a given time. -/
def breakerCall (threshold cooldown now : Nat) (bodyFails : Bool) (s : BreakerState) :
    BreakerCall :=
  breakerInvoke threshold now bodyFails (breakerObserve cooldown now s)

/-- Validity of the stage order of a built Pipeline Definition: every declared
dependency names a stage declared earlier (hence the graph is acyclic and fully
resolved, as checked at pipeline build time). -/
def topoOrderedFrom (seen : List String) : List StageSpec → Bool
  | [] => true
  | s :: rest => s.deps.all (fun d => decide (d ∈ seen)) && topoOrderedFrom (s.name :: seen) rest

/-- Direct-or-transitive dependency between stage names in a pipeline. -/
inductive DependsOn (stages : List StageSpec) : String → String → Prop
  | direct (s : StageSpec) (hs : s ∈ stages) (d : String) (hd : d ∈ s.deps) :
      DependsOn stages s.name d
  | trans (x y z : String) (hxy : DependsOn stages x y) (hyz : DependsOn stages y z) :
      DependsOn stages x z

/-- The chat pipeline graph, embedded from `create_chat_pipeline` in the source. -/
def chatStages : List StageSpec :=
  [⟨"input_guard", StageKind.guard, []⟩,
   ⟨"profile_enrich", StageKind.enrich, []⟩,
   ⟨"summary_enrich", StageKind.enrich, []⟩,
   ⟨"llm", StageKind.transform, ["input_guard", "profile_enrich", "summary_enrich"]⟩,
   ⟨"output_guard", StageKind.guard, ["llm"]⟩,
   ⟨"persist", StageKind.work, ["output_guard"]⟩]

/-- A concrete genesis snapshot, mirroring `chat_service.process_message`. -/
def demoSnapshot : ContextSnapshot :=
  ⟨1, 2, some 3, some 4, some 5, some 6, "chat_pipeline", "default", some "hello", []⟩

/-- Behaviors in which every stage returns OK. -/
def allOkBehaviors : String → InputView → ExecResult :=
  fun _ _ => ExecResult.out (StageOutput.ok []) 1

/-- Behaviors in which the `profile_enrich` stage FAILs and all others OK. -/
def enrichFailBehaviors : String → InputView → ExecResult :=
  fun n _ =>
    if n = "profile_enrich" then ExecResult.out (StageOutput.fail "profile lookup boom" []) 1
    else ExecResult.out (StageOutput.ok []) 1

/-- Behaviors in which the `input_guard` stage issues a CANCEL (unsafe input). -/
def guardCancelBehaviors : String → InputView → ExecResult :=
  fun n _ =>
    if n = "input_guard" then
      ExecResult.out (StageOutput.cancel "Input blocked: unsafe_input"
        [("blocked", Value.bool true)]) 1
    else ExecResult.out (StageOutput.ok []) 1

/-- Behaviors in which the `llm` stage raises an uncaught exception. -/
def llmRaisesBehaviors : String → InputView → ExecResult :=
  fun n _ =>
    if n = "llm" then ExecResult.exn "provider timeout" true 7
    else ExecResult.out (StageOutput.ok []) 1

/-- A guard service that flags everything as unsafe. -/
def demoBlockingCheck : String → GuardCheckResult := fun _ => ⟨false, "pii", "safety"⟩

/-- A guard service that flags everything as safe. -/
def demoSafeCheck : String → GuardCheckResult := fun _ => ⟨true, "", ""⟩

/-- A concrete OK stage result carrying a payload. -/
def demoResultA : StageResult :=
  ⟨StageStatus.ok, "", [("response", Value.str "hi")], false, 1, false, some 0, 1⟩

/-- A concrete OK stage result carrying a different payload. -/
def demoResultB : StageResult :=
  ⟨StageStatus.ok, "", [("secret", Value.str "x")], false, 1, false, some 2, 3⟩

/-- An event sink that always fails. -/
def demoFailSink : PipeEvent → Except String Unit := fun _ => Except.error "db down"

/-- An event sink that always succeeds. -/
def demoOkSink : PipeEvent → Except String Unit := fun _ => Except.ok ()

/-- Breaker state after three consecutive failing calls from CLOSED. -/
def breakerAfterThreeFailures (t1 t2 t3 : Nat) : BreakerState :=
  (breakerCall CIRCUIT_BREAKER_FAILURE_THRESHOLD CIRCUIT_BREAKER_OPEN_SECONDS t3 true
    ((breakerCall CIRCUIT_BREAKER_FAILURE_THRESHOLD CIRCUIT_BREAKER_OPEN_SECONDS t2 true
      ((breakerCall CIRCUIT_BREAKER_FAILURE_THRESHOLD CIRCUIT_BREAKER_OPEN_SECONDS t1 true
        (BreakerState.closed 0)).state)).state)).state

/-- Clock invariant of the scheduler: every recorded completion precedes the
current logical clock. -/
def ClockInv (st : RunState) : Prop :=
  ∀ n r, findResult st.results n = some r → r.finishedAt < st.clock

theorem findResult_append (rs1 rs2 : List (String × StageResult)) (n : String) :
    findResult (rs1 ++ rs2) n =
      (match findResult rs1 n with
       | some r => some r
       | none => findResult rs2 n) := by
  induction rs1 with
  | nil => simp [findResult]
  | cons p rest ih =>
      by_cases h : p.1 = n
      · simp [findResult, h]
      · simp [findResult, h, ih]

theorem findResult_append_some {rs1 : List (String × StageResult)} {n : String}
    {r : StageResult} (h : findResult rs1 n = some r) (rs2 : List (String × StageResult)) :
    findResult (rs1 ++ rs2) n = some r := by
  rw [findResult_append, h]

theorem findResult_append_none {rs1 : List (String × StageResult)} {n : String}
    (h : findResult rs1 n = none) (rs2 : List (String × StageResult)) :
    findResult (rs1 ++ rs2) n = findResult rs2 n := by
  rw [findResult_append, h]

theorem findResult_eq_none_iff (rs : List (String × StageResult)) (n : String) :
    findResult rs n = none ↔ n ∉ rs.map (fun p => p.1) := by
  induction rs with
  | nil => simp [findResult]
  | cons p rest ih =>
      simp only [findResult, List.map_cons, List.mem_cons]
      by_cases h : p.1 = n
      · simp [h]
      · have h' : ¬ n = p.1 := fun hh => h hh.symm
        simp [h, h', ih]

theorem findResult_isSome_iff (rs : List (String × StageResult)) (n : String) :
    (findResult rs n).isSome = true ↔ n ∈ rs.map (fun p => p.1) := by
  rw [Option.isSome_iff_ne_none, Ne, findResult_eq_none_iff]
  exact not_not

theorem findResult_mem :
    ∀ {rs : List (String × StageResult)} {n : String} {r : StageResult},
      findResult rs n = some r → (n, r) ∈ rs := by
  intro rs
  induction rs with
  | nil => intro n r h; simp [findResult] at h
  | cons p rest ih =>
      intro n r h
      simp only [findResult] at h
      by_cases hp : p.1 = n
      · rw [if_pos hp] at h
        have hr : p.2 = r := Option.some.inj h
        have hpr : (n, r) = p := by
          cases p
          simp only at hp hr
          simp [hp, hr]
        simp [hpr]
      · rw [if_neg hp] at h
        exact List.mem_cons_of_mem p (ih h)

theorem mem_findResult_of_nodup :
    ∀ {rs : List (String × StageResult)} {n : String} {r : StageResult},
      (rs.map (fun p => p.1)).Nodup → (n, r) ∈ rs → findResult rs n = some r := by
  intro rs
  induction rs with
  | nil => intro n r _ h; simp at h
  | cons p rest ih =>
      intro n r hnd h
      rw [List.map_cons, List.nodup_cons] at hnd
      rcases List.mem_cons.mp h with h1 | h1
      · subst h1
        simp [findResult]
      · have hmem : n ∈ rest.map (fun p => p.1) := List.mem_map.mpr ⟨(n, r), h1, rfl⟩
        have hne : ¬ p.1 = n := fun he => hnd.1 (he ▸ hmem)
        simp only [findResult, if_neg hne]
        exact ih hnd.2 h1

theorem runStages_names (b : String → InputView → ExecResult) (sn : ContextSnapshot) :
    ∀ (l : List StageSpec) (st : RunState),
      (runStages b sn l st).results.map (fun p => p.1)
        = st.results.map (fun p => p.1) ++ l.map (fun x => x.name) := by
  intro l
  induction l with
  | nil => intro st; simp [runStages]
  | cons s rest ih =>
      intro st
      rw [runStages, ih]
      simp [stepStage, List.append_assoc]

theorem runStages_stable (b : String → InputView → ExecResult) (sn : ContextSnapshot) :
    ∀ (l : List StageSpec) (st : RunState) {n : String} {r : StageResult},
      findResult st.results n = some r →
      findResult (runStages b sn l st).results n = some r := by
  intro l
  induction l with
  | nil => intro st n r h; exact h
  | cons s rest ih =>
      intro st n r h
      exact ih (stepStage b sn st s) (findResult_append_some h _)

theorem runStages_split (b : String → InputView → ExecResult) (sn : ContextSnapshot) :
    ∀ (l1 l2 : List StageSpec) (st : RunState),
      runStages b sn (l1 ++ l2) st = runStages b sn l2 (runStages b sn l1 st) := by
  intro l1
  induction l1 with
  | nil => intro l2 st; rfl
  | cons s rest ih => intro l2 st; exact ih l2 (stepStage b sn st s)

theorem stepResult_finishedAt_lt (b : String → InputView → ExecResult)
    (sn : ContextSnapshot) (st : RunState) (s : StageSpec) :
    (stepResult b sn st s).finishedAt < st.clock + 2 := by
  unfold stepResult
  split
  · split
    · simp only [cascadeCancelResult]; omega
    · split
      · simp only [resultOfOutput]; omega
      · simp only [exnFailResult]; omega
  · simp only [missingDepResult]; omega

theorem clockInv_step (b : String → InputView → ExecResult) (sn : ContextSnapshot)
    {st : RunState} (h : ClockInv st) (s : StageSpec) :
    ClockInv (stepStage b sn st s) := by
  intro n r hr
  have hres : (stepStage b sn st s).results
      = st.results ++ [(s.name, stepResult b sn st s)] := rfl
  rw [hres, findResult_append] at hr
  cases hfind : findResult st.results n with
  | some r0 =>
      rw [hfind] at hr
      have hr' : r0 = r := by simpa using hr
      subst hr'
      have := h n r0 hfind
      show r0.finishedAt < st.clock + 2
      omega
  | none =>
      rw [hfind] at hr
      simp only [findResult] at hr
      by_cases hn : s.name = n
      · rw [if_pos hn] at hr
        cases hr
        exact stepResult_finishedAt_lt b sn st s
      · rw [if_neg hn] at hr
        cases hr

theorem clockInv_run (b : String → InputView → ExecResult) (sn : ContextSnapshot) :
    ∀ (l : List StageSpec) (st : RunState), ClockInv st → ClockInv (runStages b sn l st) := by
  intro l
  induction l with
  | nil => intro st h; exact h
  | cons s rest ih => intro st h; exact ih _ (clockInv_step b sn h s)

theorem clockInv_init : ClockInv ⟨[], 0⟩ := by
  intro n r h
  simp [findResult] at h

theorem findBadDep_some {results : List (String × StageResult)} :
    ∀ {deps : List String} {d : String}, findBadDep results deps = some d →
      d ∈ deps ∧ ∃ r, findResult results d = some r ∧ badStatus r.status = true := by
  intro deps
  induction deps with
  | nil => intro d h; simp [findBadDep] at h
  | cons d0 ds ih =>
      intro d h
      simp only [findBadDep] at h
      split at h
      next r heq =>
        split at h
        next hb =>
          cases h
          exact ⟨List.mem_cons_self _ _, r, heq, hb⟩
        next hb =>
          obtain ⟨hd, r', hr', hb'⟩ := ih h
          exact ⟨List.mem_cons_of_mem _ hd, r', hr', hb'⟩
      next heq =>
        obtain ⟨hd, r', hr', hb'⟩ := ih h
        exact ⟨List.mem_cons_of_mem _ hd, r', hr', hb'⟩

theorem findBadDep_isSome {results : List (String × StageResult)} :
    ∀ {deps : List String} {d : String} {r : StageResult},
      d ∈ deps → findResult results d = some r → badStatus r.status = true →
      (findBadDep results deps).isSome = true := by
  intro deps
  induction deps with
  | nil => intro d r hd _ _; simp at hd
  | cons d0 ds ih =>
      intro d r hd hf hb
      simp only [findBadDep]
      rcases List.mem_cons.mp hd with h1 | h1
      · subst h1
        simp only [hf]
        rw [if_pos hb]
        rfl
      · have hrec : (findBadDep results ds).isSome = true := ih h1 hf hb
        cases hf0 : findResult results d0 with
        | some r0 =>
            by_cases hb0 : badStatus r0.status = true
            · simp [hb0]
            · simp [hb0, hrec]
        | none => simpa using hrec

theorem topoOrdered_deps :
    ∀ {l1 : List StageSpec} {s : StageSpec} {l2 : List StageSpec} {seen : List String},
      topoOrderedFrom seen (l1 ++ s :: l2) = true →
      ∀ d ∈ s.deps, d ∈ seen ∨ d ∈ l1.map (fun x => x.name) := by
  intro l1
  induction l1 with
  | nil =>
      intro s l2 seen h d hd
      simp only [List.nil_append, topoOrderedFrom, Bool.and_eq_true] at h
      have hall := (List.all_eq_true.mp h.1) d hd
      exact Or.inl (of_decide_eq_true hall)
  | cons x rest ih =>
      intro s l2 seen h d hd
      simp only [List.cons_append, topoOrderedFrom, Bool.and_eq_true] at h
      rcases ih h.2 d hd with h1 | h1
      · rcases List.mem_cons.mp h1 with h2 | h2
        · exact Or.inr (by simp [h2])
        · exact Or.inl h2
      · exact Or.inr (by simp only [List.map_cons]; exact List.mem_cons_of_mem _ h1)

theorem deps_present_at (b : String → InputView → ExecResult) (sn : ContextSnapshot)
    (pre : List StageSpec) (s : StageSpec) (post : List StageSpec)
    (hT : topoOrderedFrom [] (pre ++ s :: post) = true) :
    s.deps.all (fun d => (findResult (runStages b sn pre ⟨[], 0⟩).results d).isSome) = true := by
  rw [List.all_eq_true]
  intro d hd
  show (findResult (runStages b sn pre ⟨[], 0⟩).results d).isSome = true
  rcases topoOrdered_deps hT d hd with h | h
  · simp at h
  · rw [findResult_isSome_iff, runStages_names]
    simpa using h

theorem final_entry (b : String → InputView → ExecResult) (sn : ContextSnapshot)
    (pre : List StageSpec) (s : StageSpec) (post : List StageSpec)
    (hnd : ((pre ++ s :: post).map (fun x => x.name)).Nodup) :
    findResult (runStages b sn (pre ++ s :: post) ⟨[], 0⟩).results s.name
      = some (stepResult b sn (runStages b sn pre ⟨[], 0⟩) s) := by
  rw [runStages_split b sn pre (s :: post) ⟨[], 0⟩]
  have hname : s.name ∉ pre.map (fun x => x.name) := by
    intro hmem
    rw [List.map_append, List.map_cons, List.nodup_append] at hnd
    exact (hnd.2.2 hmem) (List.mem_cons_self _ _)
  have hnone : findResult (runStages b sn pre ⟨[], 0⟩).results s.name = none := by
    rw [findResult_eq_none_iff, runStages_names]
    simpa using hname
  have hstep : findResult (stepStage b sn (runStages b sn pre ⟨[], 0⟩) s).results s.name
      = some (stepResult b sn (runStages b sn pre ⟨[], 0⟩) s) := by
    show findResult ((runStages b sn pre ⟨[], 0⟩).results
      ++ [(s.name, stepResult b sn (runStages b sn pre ⟨[], 0⟩) s)]) s.name = _
    rw [findResult_append_none hnone]
    simp [findResult]
  exact runStages_stable b sn post _ hstep

theorem stepResult_started (b : String → InputView → ExecResult) (sn : ContextSnapshot)
    (st : RunState) (s : StageSpec) {t : Nat}
    (h : (stepResult b sn st s).startedAt = some t) :
    t = st.clock ∧ s.deps.all (fun d => (findResult st.results d).isSome) = true ∧
      findBadDep st.results s.deps = none := by
  unfold stepResult at h
  split at h
  next hall =>
    split at h
    next d heq => simp [cascadeCancelResult] at h
    next heq =>
      split at h
      next o dur hb =>
        simp only [resultOfOutput] at h
        exact ⟨(Option.some.inj h).symm, hall, heq⟩
      next msg retr dur hb =>
        simp only [exnFailResult] at h
        exact ⟨(Option.some.inj h).symm, hall, heq⟩
  next hall => simp [missingDepResult] at h

theorem stepResult_exec (b : String → InputView → ExecResult) (sn : ContextSnapshot)
    (st : RunState) (s : StageSpec)
    (hall : s.deps.all (fun d => (findResult st.results d).isSome) = true)
    (hnb : findBadDep st.results s.deps = none) :
    stepResult b sn st s =
      (match b s.name (mkInputView sn s.deps st.results) with
       | ExecResult.out o dur => resultOfOutput o dur st.clock
       | ExecResult.exn msg retr dur => exnFailResult s.name msg retr dur st.clock) := by
  unfold stepResult
  rw [if_pos hall]
  simp only [hnb]

theorem stepResult_cascade (b : String → InputView → ExecResult) (sn : ContextSnapshot)
    (st : RunState) (s : StageSpec) {d : String}
    (hall : s.deps.all (fun d => (findResult st.results d).isSome) = true)
    (hbd : findBadDep st.results s.deps = some d) :
    stepResult b sn st s = cascadeCancelResult d st.clock := by
  unfold stepResult
  rw [if_pos hall]
  simp only [hbd]

theorem isOkOrSkip_iff (st : StageStatus) :
    isOkOrSkip st = true ↔ st = StageStatus.ok ∨ st = StageStatus.skip := by
  cases st <;> simp [isOkOrSkip]

theorem badStatus_iff (st : StageStatus) :
    badStatus st = true ↔ st = StageStatus.cancel ∨ st = StageStatus.fail := by
  cases st <;> simp [badStatus]

theorem isCancelStatus_iff (st : StageStatus) :
    isCancelStatus st = true ↔ st = StageStatus.cancel := by
  cases st <;> simp [isCancelStatus]

theorem guardIssuedCancel_iff (stages : List StageSpec)
    (results : List (String × StageResult)) :
    guardIssuedCancel stages results = true ↔
      ∃ s ∈ stages, isGuard s.kind = true ∧
        ∃ r, findResult results s.name = some r ∧
          r.status = StageStatus.cancel ∧ r.cascaded = false := by
  unfold guardIssuedCancel
  rw [List.any_eq_true]
  constructor
  · rintro ⟨s, hs, hp⟩
    rw [Bool.and_eq_true] at hp
    obtain ⟨hg, hm⟩ := hp
    cases hfind : findResult results s.name with
    | none => simp [hfind] at hm
    | some r =>
        simp only [hfind, Bool.and_eq_true] at hm
        exact ⟨s, hs, hg, r, hfind, (isCancelStatus_iff _).mp hm.1,
          by simpa using hm.2⟩
  · rintro ⟨s, hs, hg, r, hfind, hc, hcas⟩
    refine ⟨s, hs, ?_⟩
    rw [Bool.and_eq_true]
    refine ⟨hg, ?_⟩
    simp only [hfind, Bool.and_eq_true]
    exact ⟨(isCancelStatus_iff _).mpr hc, by simp [hcas]⟩

theorem gatherInputs_congr {rs1 rs2 : List (String × StageResult)} :
    ∀ {deps : List String}, (∀ d ∈ deps, findResult rs1 d = findResult rs2 d) →
      gatherInputs rs1 deps = gatherInputs rs2 deps := by
  intro deps
  induction deps with
  | nil => intro _; rfl
  | cons d ds ih =>
      intro h
      simp only [gatherInputs]
      rw [h d (List.mem_cons_self _ _),
        ih (fun d' hd' => h d' (List.mem_cons_of_mem _ hd'))]

/-- C5: the input view a stage executes against is a pure function of exactly
the genesis Context Snapshot and the result payloads of its declared
dependencies — two runs agreeing on those agree on the view — and a stage with
an empty dependency set cannot observe any other stage's payload. -/
theorem c5_input_view_pure (snap : ContextSnapshot) (deps : List String)
    (rs1 rs2 : List (String × StageResult))
    (h : ∀ d ∈ deps, findResult rs1 d = findResult rs2 d) :
    mkInputView snap deps rs1 = mkInputView snap deps rs2 ∧
      ∀ (rs : List (String × StageResult)), mkInputView snap [] rs = ⟨snap, []⟩ := by
  constructor
  · unfold mkInputView
    rw [gatherInputs_congr h]
  · intro rs; rfl

theorem c5_witness :
    (∀ d ∈ ["llm"],
        findResult [("llm", demoResultA), ("other", demoResultB)] d
          = findResult [("llm", demoResultA)] d) ∧
      (mkInputView demoSnapshot ["llm"] [("llm", demoResultA), ("other", demoResultB)]
          = mkInputView demoSnapshot ["llm"] [("llm", demoResultA)] ∧
        ∀ (rs : List (String × StageResult)),
          mkInputView demoSnapshot [] rs = ⟨demoSnapshot, []⟩) :=
  ⟨by decide,
   c5_input_view_pure demoSnapshot ["llm"] [("llm", demoResultA), ("other", demoResultB)]
     [("llm", demoResultA)] (by decide)⟩

/-- C7: a failure of the Event Sink is caught and logged and never blocks the
run or changes its outcome — the run record with any sink equals the run record
with any other sink, the surfaced outcome is unchanged, and each sink failure is
recorded in the log rather than propagated. -/
theorem c7_sink_isolation (stages : List StageSpec)
    (behaviors : String → InputView → ExecResult) (snapshot : ContextSnapshot)
    (sinkA sinkB : PipeEvent → Except String Unit) :
    (runPipelineWithSink stages behaviors snapshot sinkA).1
        = (runPipelineWithSink stages behaviors snapshot sinkB).1 ∧
      surfaceRun (runPipelineWithSink stages behaviors snapshot sinkA).1
        = surfaceRun (runPipelineWithSink stages behaviors snapshot sinkB).1 ∧
      ∀ (e : PipeEvent) (m : String),
        e ∈ runEvents (runPipeline stages behaviors snapshot) →
        sinkA e = Except.error m →
        m ∈ (runPipelineWithSink stages behaviors snapshot sinkA).2 := by
  refine ⟨rfl, rfl, ?_⟩
  intro e m he hm
  show m ∈ tryEmitAll sinkA (runEvents (runPipeline stages behaviors snapshot))
  unfold tryEmitAll
  apply List.mem_filterMap.mpr
  exact ⟨e, he, by rw [hm]⟩

theorem c7_witness :
    (⟨"pipeline.run.completed", ""⟩ : PipeEvent)
        ∈ runEvents (runPipeline [] allOkBehaviors demoSnapshot) ∧
      demoFailSink ⟨"pipeline.run.completed", ""⟩ = Except.error "db down" ∧
      "db down" ∈ (runPipelineWithSink [] allOkBehaviors demoSnapshot demoFailSink).2 ∧
      (runPipelineWithSink [] allOkBehaviors demoSnapshot demoFailSink).1
        = (runPipelineWithSink [] allOkBehaviors demoSnapshot demoOkSink).1 :=
  ⟨by decide, rfl,
   (c7_sink_isolation [] allOkBehaviors demoSnapshot demoFailSink demoOkSink).2.2
     ⟨"pipeline.run.completed", ""⟩ "db down" (by decide) rfl,
   (c7_sink_isolation [] allOkBehaviors demoSnapshot demoFailSink demoOkSink).1⟩

/-- C8: the circuit breaker follows the specified state machine — from CLOSED,
3 consecutive FAILs trip it OPEN and the next invocation within the cool-down
short-circuits without invoking the stage body; once the cool-down elapses it is
HALF_OPEN and exactly one trial invocation runs, a successful trial returning
CLOSED and a failed trial returning OPEN with the cool-down restarted. -/
theorem c8_circuit_breaker_state_machine (t1 t2 t3 t4 t5 : Nat) (bodyFails : Bool)
    (h4 : t4 < t3 + CIRCUIT_BREAKER_OPEN_SECONDS)
    (h5 : t3 + CIRCUIT_BREAKER_OPEN_SECONDS ≤ t5) :
    breakerAfterThreeFailures t1 t2 t3 = BreakerState.opened t3 ∧
      breakerCall CIRCUIT_BREAKER_FAILURE_THRESHOLD CIRCUIT_BREAKER_OPEN_SECONDS t4
          bodyFails (breakerAfterThreeFailures t1 t2 t3)
        = ⟨BreakerState.opened t3, false, true⟩ ∧
      breakerObserve CIRCUIT_BREAKER_OPEN_SECONDS t5 (breakerAfterThreeFailures t1 t2 t3)
        = BreakerState.halfOpen ∧
      (breakerCall CIRCUIT_BREAKER_FAILURE_THRESHOLD CIRCUIT_BREAKER_OPEN_SECONDS t5
          bodyFails (breakerAfterThreeFailures t1 t2 t3)).invoked = true ∧
      (breakerCall CIRCUIT_BREAKER_FAILURE_THRESHOLD CIRCUIT_BREAKER_OPEN_SECONDS t5
          false (breakerAfterThreeFailures t1 t2 t3)).state = BreakerState.closed 0 ∧
      (breakerCall CIRCUIT_BREAKER_FAILURE_THRESHOLD CIRCUIT_BREAKER_OPEN_SECONDS t5
          true (breakerAfterThreeFailures t1 t2 t3)).state = BreakerState.opened t5 := by
  have hs3 : breakerAfterThreeFailures t1 t2 t3 = BreakerState.opened t3 := by
    simp [breakerAfterThreeFailures, breakerCall, breakerObserve, breakerInvoke,
      CIRCUIT_BREAKER_FAILURE_THRESHOLD]
  have hno : ¬ (t3 + CIRCUIT_BREAKER_OPEN_SECONDS ≤ t4) := by omega
  refine ⟨hs3, ?_, ?_, ?_, ?_, ?_⟩
  · rw [hs3]
    simp [breakerCall, breakerObserve, breakerInvoke, hno]
  · rw [hs3]
    simp [breakerObserve, h5]
  · rw [hs3]
    cases bodyFails <;> simp [breakerCall, breakerObserve, breakerInvoke, h5]
  · rw [hs3]
    simp [breakerCall, breakerObserve, breakerInvoke, h5]
  · rw [hs3]
    simp [breakerCall, breakerObserve, breakerInvoke, h5]

theorem c8_witness :
    30 < 2 + CIRCUIT_BREAKER_OPEN_SECONDS ∧
      2 + CIRCUIT_BREAKER_OPEN_SECONDS ≤ 62 ∧
      (breakerAfterThreeFailures 0 1 2 = BreakerState.opened 2 ∧
        breakerCall CIRCUIT_BREAKER_FAILURE_THRESHOLD CIRCUIT_BREAKER_OPEN_SECONDS 30
            true (breakerAfterThreeFailures 0 1 2)
          = ⟨BreakerState.opened 2, false, true⟩ ∧
        breakerObserve CIRCUIT_BREAKER_OPEN_SECONDS 62 (breakerAfterThreeFailures 0 1 2)
          = BreakerState.halfOpen ∧
        (breakerCall CIRCUIT_BREAKER_FAILURE_THRESHOLD CIRCUIT_BREAKER_OPEN_SECONDS 62
            true (breakerAfterThreeFailures 0 1 2)).invoked = true ∧
        (breakerCall CIRCUIT_BREAKER_FAILURE_THRESHOLD CIRCUIT_BREAKER_OPEN_SECONDS 62
            false (breakerAfterThreeFailures 0 1 2)).state = BreakerState.closed 0 ∧
        (breakerCall CIRCUIT_BREAKER_FAILURE_THRESHOLD CIRCUIT_BREAKER_OPEN_SECONDS 62
            true (breakerAfterThreeFailures 0 1 2)).state = BreakerState.opened 62) :=
  ⟨by decide, by decide,
   c8_circuit_breaker_state_machine 0 1 2 30 62 true (by decide) (by decide)⟩

/-- C9: every response checked by the output_guard stage yields an OK result;
when the guard service flags the response as unsafe the stage returns OK with
the fixed replacement text and filtered=true instead of CANCEL or FAIL, so an
unsafe model output by itself never fails or cancels the run. -/
theorem c9_output_guard_always_ok (inputs : Option (List (String × Value)))
    (check_output : String → GuardCheckResult) :
    (OutputGuardStage.execute inputs check_output).status = StageStatus.ok ∧
      ((check_output (OutputGuardStage.responseOf inputs)).is_safe = false →
        OutputGuardStage.execute inputs check_output =
          StageOutput.ok
            [("response", Value.str outputGuardReplacement),
             ("filtered", Value.bool true),
             ("filter_reason",
               Value.str (check_output (OutputGuardStage.responseOf inputs)).reason)]) := by
  constructor
  · unfold OutputGuardStage.execute
    by_cases h : (check_output (OutputGuardStage.responseOf inputs)).is_safe = false
    · simp [h, StageOutput.ok]
    · simp [h, StageOutput.ok]
  · intro h
    unfold OutputGuardStage.execute
    simp [h]

theorem c9_witness :
    (demoBlockingCheck
        (OutputGuardStage.responseOf (some [("response", Value.str "leak")]))).is_safe
        = false ∧
      (OutputGuardStage.execute (some [("response", Value.str "leak")])
          demoBlockingCheck).status = StageStatus.ok ∧
      OutputGuardStage.execute (some [("response", Value.str "leak")]) demoBlockingCheck =
        StageOutput.ok
          [("response", Value.str outputGuardReplacement),
           ("filtered", Value.bool true),
           ("filter_reason", Value.str "pii")] :=
  ⟨rfl,
   (c9_output_guard_always_ok (some [("response", Value.str "leak")]) demoBlockingCheck).1,
   (c9_output_guard_always_ok (some [("response", Value.str "leak")]) demoBlockingCheck).2 rfl⟩

/-- C10: when the resolved input text is absent, empty, or only whitespace, the
input_guard stage returns CANCEL with reason "Empty input" and data marking the
input as blocked, and the result does not depend on the guard service's
check_input (which is therefore never invoked). -/
theorem c10_input_guard_empty_input (input_text : Option String)
    (f g : String → GuardCheckResult)
    (h : pyStrip (input_text.getD "") = "") :
    InputGuardStage.execute input_text f =
        StageOutput.cancel "Empty input"
          [("blocked", Value.bool true), ("reason", Value.str "empty_input")] ∧
      InputGuardStage.execute input_text f = InputGuardStage.execute input_text g := by
  cases input_text with
  | none => exact ⟨rfl, rfl⟩
  | some t =>
      have ht : t = "" ∨ pyStrip t = "" := Or.inr h
      constructor
      · simp only [InputGuardStage.execute]
        rw [if_pos ht]
      · simp only [InputGuardStage.execute]
        rw [if_pos ht, if_pos ht]

theorem c10_witness :
    pyStrip ((some "  \t ").getD "") = "" ∧
      (InputGuardStage.execute (some "  \t ") demoBlockingCheck =
          StageOutput.cancel "Empty input"
            [("blocked", Value.bool true), ("reason", Value.str "empty_input")] ∧
        InputGuardStage.execute (some "  \t ") demoBlockingCheck
          = InputGuardStage.execute (some "  \t ") demoSafeCheck) :=
  ⟨by decide,
   c10_input_guard_empty_input (some "  \t ") demoBlockingCheck demoSafeCheck (by decide)⟩

theorem surfaceRun_shape (record : RunRecord) :
    (∃ e, surfaceRun record = Except.error e) ∨ surfaceRun record = Except.ok record := by
  cases hs : record.status with
  | failed => exact Or.inl ⟨_, by unfold surfaceRun; rw [hs]⟩
  | cancelled => exact Or.inl ⟨_, by unfold surfaceRun; rw [hs]⟩
  | success => exact Or.inr (by unfold surfaceRun; rw [hs])

theorem cascade_direct (stages : List StageSpec)
    (behaviors : String → InputView → ExecResult) (snapshot : ContextSnapshot)
    (hT : topoOrderedFrom [] stages = true)
    (hN : (stages.map (fun x => x.name)).Nodup)
    (s : StageSpec) (hs : s ∈ stages) (d : String) (hd : d ∈ s.deps)
    (hbad : resultStatusOf (runPipeline stages behaviors snapshot).results d
          = some StageStatus.fail ∨
        resultStatusOf (runPipeline stages behaviors snapshot).results d
          = some StageStatus.cancel) :
    ∃ sB rb, sB ∈ stages ∧ sB.name = s.name ∧
      findResult (runPipeline stages behaviors snapshot).results s.name = some rb ∧
      rb.status = StageStatus.cancel ∧ rb.startedAt = none ∧ rb.cascaded = true ∧
      ∃ d2, d2 ∈ sB.deps ∧
        (resultStatusOf (runPipeline stages behaviors snapshot).results d2
            = some StageStatus.fail ∨
          resultStatusOf (runPipeline stages behaviors snapshot).results d2
            = some StageStatus.cancel) ∧
        rb.reason = cascadeReason d2 := by
  obtain ⟨pre, post, hsplit⟩ := List.append_of_mem hs
  subst hsplit
  have hfind := final_entry behaviors snapshot pre s post hN
  have hall : s.deps.all (fun d2 =>
      (findResult (runStages behaviors snapshot pre ⟨[], 0⟩).results d2).isSome) = true :=
    deps_present_at behaviors snapshot pre s post hT
  have hdpres := List.all_eq_true.mp hall d hd
  obtain ⟨rd, hrd⟩ := Option.isSome_iff_exists.mp hdpres
  have hdfinal : findResult (runPipeline (pre ++ s :: post) behaviors snapshot).results d
      = some rd := by
    show findResult (runStages behaviors snapshot (pre ++ s :: post) ⟨[], 0⟩).results d
      = some rd
    rw [runStages_split]
    exact runStages_stable behaviors snapshot (s :: post) _ hrd
  have hrdbad : badStatus rd.status = true := by
    rw [badStatus_iff]
    unfold resultStatusOf at hbad
    rw [hdfinal, Option.map_some'] at hbad
    rcases hbad with hx | hx
    · exact Or.inr (Option.some.inj hx)
    · exact Or.inl (Option.some.inj hx)
  have hsome := findBadDep_isSome hd hrd hrdbad
  obtain ⟨dbad, hdbad⟩ := Option.isSome_iff_exists.mp hsome
  obtain ⟨hdbadmem, rbad, hrbad, hrbadstatus⟩ := findBadDep_some hdbad
  have hstep := stepResult_cascade behaviors snapshot
    (runStages behaviors snapshot pre ⟨[], 0⟩) s hall hdbad
  have hbadfinal : findResult (runPipeline (pre ++ s :: post) behaviors snapshot).results
      dbad = some rbad := by
    show findResult (runStages behaviors snapshot (pre ++ s :: post) ⟨[], 0⟩).results dbad
      = some rbad
    rw [runStages_split]
    exact runStages_stable behaviors snapshot (s :: post) _ hrbad
  have hbadstat : resultStatusOf (runPipeline (pre ++ s :: post) behaviors snapshot).results
      dbad = some rbad.status := by
    unfold resultStatusOf
    rw [hbadfinal, Option.map_some']
  refine ⟨s, cascadeCancelResult dbad (runStages behaviors snapshot pre ⟨[], 0⟩).clock,
    by simp, rfl, ?_, rfl, rfl, rfl, dbad, hdbadmem, ?_, rfl⟩
  · show findResult (runStages behaviors snapshot (pre ++ s :: post) ⟨[], 0⟩).results s.name
      = some (cascadeCancelResult dbad (runStages behaviors snapshot pre ⟨[], 0⟩).clock)
    rw [hfind, hstep]
  rcases (badStatus_iff _).mp hrbadstatus with hx | hx
  · exact Or.inr (by rw [hbadstat, hx])
  · exact Or.inl (by rw [hbadstat, hx])

/-- C1: given the fixed set of terminal Stage Results of a run's stages, the
overall run status is a pure deterministic function of those results: SUCCESS
iff every stage terminated OK or SKIP; otherwise CANCELLED iff the run was
externally cancelled or a GUARD-kind stage issued a cancellation; otherwise
FAILED. -/
theorem c1_run_status_aggregation (stages : List StageSpec)
    (results : List (String × StageResult)) (ext : Bool)
    (hnodup : (results.map (fun p => p.1)).Nodup)
    (hcov : ∀ p ∈ results, ∃ s ∈ stages, StageSpec.name s = p.1)
    (hcomp : ∀ s ∈ stages, (findResult results s.name).isSome = true) :
    (computeRunStatus stages results ext = RunStatus.success ↔
        ∀ s ∈ stages, ∀ r, findResult results s.name = some r →
          isOkOrSkip r.status = true) ∧
      (computeRunStatus stages results ext ≠ RunStatus.success →
        (computeRunStatus stages results ext = RunStatus.cancelled ↔
          (ext = true ∨ ∃ s ∈ stages, isGuard s.kind = true ∧
            ∃ r, findResult results s.name = some r ∧
              r.status = StageStatus.cancel ∧ r.cascaded = false))) ∧
      (computeRunStatus stages results ext ≠ RunStatus.success →
        computeRunStatus stages results ext ≠ RunStatus.cancelled →
        computeRunStatus stages results ext = RunStatus.failed) := by
  by_cases hall : results.all (fun p => isOkOrSkip p.2.status) = true
  · have hstat : computeRunStatus stages results ext = RunStatus.success := by
      unfold computeRunStatus
      rw [if_pos hall]
    refine ⟨⟨fun _ s hs r hr => ?_, fun _ => hstat⟩,
      fun hne => absurd hstat hne, fun hne _ => absurd hstat hne⟩
    exact List.all_eq_true.mp hall (s.name, r) (findResult_mem hr)
  · have hstat : computeRunStatus stages results ext
        = if ext || guardIssuedCancel stages results then RunStatus.cancelled
          else RunStatus.failed := by
      unfold computeRunStatus
      rw [if_neg hall]
    refine ⟨?_, ?_, ?_⟩
    · constructor
      · intro hs
        rw [hstat] at hs
        by_cases hc : (ext || guardIssuedCancel stages results) = true
        · rw [if_pos hc] at hs
          simp at hs
        · rw [if_neg hc] at hs
          simp at hs
      · intro hforall
        exfalso
        apply hall
        rw [List.all_eq_true]
        intro p hp
        obtain ⟨pn, pr⟩ := p
        obtain ⟨s, hs, hname⟩ := hcov (pn, pr) hp
        have hfind : findResult results s.name = some pr := by
          rw [hname]
          exact mem_findResult_of_nodup hnodup hp
        exact hforall s hs pr hfind
    · intro _
      rw [hstat]
      by_cases hc : (ext || guardIssuedCancel stages results) = true
      · rw [if_pos hc]
        constructor
        · intro _
          have hc' : ext = true ∨ guardIssuedCancel stages results = true := by
            simpa using hc
          rcases hc' with hx | hx
          · exact Or.inl hx
          · exact Or.inr ((guardIssuedCancel_iff _ _).mp hx)
        · intro _
          rfl
      · rw [if_neg hc]
        constructor
        · intro hfc
          simp at hfc
        · intro hor
          exfalso
          apply hc
          rcases hor with hx | hx
          · simp [hx]
          · simp [(guardIssuedCancel_iff _ _).mpr hx]
    · intro _ hnc
      rw [hstat] at hnc ⊢
      by_cases hc : (ext || guardIssuedCancel stages results) = true
      · rw [if_pos hc] at hnc
        exact absurd rfl hnc
      · rw [if_neg hc]

/-- Result list of a mixed run used to instantiate the aggregation theorem. -/
def demoAggResults : List (String × StageResult) :=
  [("input_guard",
    ⟨StageStatus.cancel, "Input blocked: unsafe_input", [], false, 1, false, some 0, 1⟩),
   ("profile_enrich", ⟨StageStatus.ok, "", [], false, 1, false, some 2, 3⟩),
   ("summary_enrich", ⟨StageStatus.skip, "No session_id provided", [], false, 0, false, some 4, 5⟩),
   ("llm", cascadeCancelResult "input_guard" 6),
   ("output_guard", cascadeCancelResult "llm" 8),
   ("persist", cascadeCancelResult "output_guard" 10)]

theorem c1_witness :
    ((demoAggResults.map (fun p => p.1)).Nodup ∧
        (∀ p ∈ demoAggResults, ∃ s ∈ chatStages, StageSpec.name s = p.1) ∧
        (∀ s ∈ chatStages, (findResult demoAggResults s.name).isSome = true)) ∧
      ((computeRunStatus chatStages demoAggResults false = RunStatus.success ↔
          ∀ s ∈ chatStages, ∀ r, findResult demoAggResults s.name = some r →
            isOkOrSkip r.status = true) ∧
        (computeRunStatus chatStages demoAggResults false ≠ RunStatus.success →
          (computeRunStatus chatStages demoAggResults false = RunStatus.cancelled ↔
            (false = true ∨ ∃ s ∈ chatStages, isGuard s.kind = true ∧
              ∃ r, findResult demoAggResults s.name = some r ∧
                r.status = StageStatus.cancel ∧ r.cascaded = false))) ∧
        (computeRunStatus chatStages demoAggResults false ≠ RunStatus.success →
          computeRunStatus chatStages demoAggResults false ≠ RunStatus.cancelled →
          computeRunStatus chatStages demoAggResults false = RunStatus.failed)) :=
  ⟨⟨by decide, by decide, by decide⟩,
   c1_run_status_aggregation chatStages demoAggResults false (by decide) (by decide)
     (by decide)⟩

/-- C4: in every run where a GUARD-kind stage itself returns CANCEL, the overall
run status is CANCELLED (with a human-readable reason), not FAILED, and no
dead-letter entry is created for the guard-initiated cancellation. -/
theorem c4_guard_cancel_cancels_run (stages : List StageSpec)
    (behaviors : String → InputView → ExecResult) (snapshot : ContextSnapshot)
    (s : StageSpec) (hs : s ∈ stages) (hg : isGuard s.kind = true) (r : StageResult)
    (hr : findResult (runPipeline stages behaviors snapshot).results s.name = some r)
    (hc : r.status = StageStatus.cancel) (hnc : r.cascaded = false) :
    (runPipeline stages behaviors snapshot).status = RunStatus.cancelled ∧
      (runPipeline stages behaviors snapshot).status ≠ RunStatus.failed ∧
      (∃ m, (runPipeline stages behaviors snapshot).runError = some m) ∧
      deadLetterFor snapshot (runPipeline stages behaviors snapshot) = none := by
  have hall : ¬ ((runPipeline stages behaviors snapshot).results.all
      (fun p => isOkOrSkip p.2.status) = true) := by
    intro hA
    have hok := List.all_eq_true.mp hA (s.name, r) (findResult_mem hr)
    rw [hc] at hok
    simp [isOkOrSkip] at hok
  have hgic : guardIssuedCancel stages (runPipeline stages behaviors snapshot).results
      = true :=
    (guardIssuedCancel_iff _ _).mpr ⟨s, hs, hg, r, hr, hc, hnc⟩
  have hstat' : computeRunStatus stages (runPipeline stages behaviors snapshot).results
      false = RunStatus.cancelled := by
    unfold computeRunStatus
    rw [if_neg hall]
    simp [hgic]
  have hstat : (runPipeline stages behaviors snapshot).status = RunStatus.cancelled := by
    show computeRunStatus stages (runPipeline stages behaviors snapshot).results false
      = RunStatus.cancelled
    exact hstat'
  refine ⟨hstat, ?_, ?_, ?_⟩
  · rw [hstat]
    simp
  · have herr : (runPipeline stages behaviors snapshot).runError
        = runErrorOf stages (runPipeline stages behaviors snapshot).results
            RunStatus.cancelled := by
      show runErrorOf stages (runPipeline stages behaviors snapshot).results
          (computeRunStatus stages (runPipeline stages behaviors snapshot).results false)
        = _
      rw [hstat']
    exact ⟨(match firstGuardIssuedCancel stages
              (runPipeline stages behaviors snapshot).results with
            | some pr => "Pipeline cancelled: " ++ pr.2
            | none => "Pipeline cancelled"),
           by rw [herr]; rfl⟩
  · simp only [deadLetterFor, hstat]

theorem c4_witness :
    ((⟨"input_guard", StageKind.guard, []⟩ : StageSpec) ∈ chatStages ∧
        isGuard StageKind.guard = true ∧
        findResult (runPipeline chatStages guardCancelBehaviors demoSnapshot).results
            "input_guard"
          = some ⟨StageStatus.cancel, "Input blocked: unsafe_input",
              [("blocked", Value.bool true)], false, 1, false, some 0, 1⟩) ∧
      ((runPipeline chatStages guardCancelBehaviors demoSnapshot).status
          = RunStatus.cancelled ∧
        (runPipeline chatStages guardCancelBehaviors demoSnapshot).status
          ≠ RunStatus.failed ∧
        (∃ m, (runPipeline chatStages guardCancelBehaviors demoSnapshot).runError
          = some m) ∧
        deadLetterFor demoSnapshot (runPipeline chatStages guardCancelBehaviors demoSnapshot)
          = none) :=
  ⟨⟨by decide, by decide, by decide⟩,
   c4_guard_cancel_cancels_run chatStages guardCancelBehaviors demoSnapshot
     ⟨"input_guard", StageKind.guard, []⟩ (by decide) (by decide)
     ⟨StageStatus.cancel, "Input blocked: unsafe_input",
       [("blocked", Value.bool true)], false, 1, false, some 0, 1⟩
     (by decide) (by decide) (by decide)⟩

/-- C2: cascading cancellation — for every stage B and every direct or
transitive dependency A of B, if A terminates FAIL or CANCEL then B's execute
function is never invoked (B never starts) and B's terminal status is recorded
as CANCEL with a reason referencing the upstream failed or cancelled
dependency; the propagation is transitive through the DAG. -/
theorem c2_cascading_cancellation (stages : List StageSpec)
    (behaviors : String → InputView → ExecResult) (snapshot : ContextSnapshot)
    (hT : topoOrderedFrom [] stages = true)
    (hN : (stages.map (fun x => x.name)).Nodup)
    (bName aName : String)
    (hdep : DependsOn stages bName aName)
    (hbad : resultStatusOf (runPipeline stages behaviors snapshot).results aName
          = some StageStatus.fail ∨
        resultStatusOf (runPipeline stages behaviors snapshot).results aName
          = some StageStatus.cancel) :
    ∃ sB rb, sB ∈ stages ∧ sB.name = bName ∧
      findResult (runPipeline stages behaviors snapshot).results bName = some rb ∧
      rb.status = StageStatus.cancel ∧ rb.startedAt = none ∧ rb.cascaded = true ∧
      ∃ d2, d2 ∈ sB.deps ∧
        (resultStatusOf (runPipeline stages behaviors snapshot).results d2
            = some StageStatus.fail ∨
          resultStatusOf (runPipeline stages behaviors snapshot).results d2
            = some StageStatus.cancel) ∧
        rb.reason = cascadeReason d2 := by
  revert hbad
  induction hdep with
  | direct s hs d hd =>
      intro hbad
      exact cascade_direct stages behaviors snapshot hT hN s hs d hd hbad
  | trans x y z hxy hyz ih1 ih2 =>
      intro hbad
      obtain ⟨sY, rY, hsY, hnY, hfY, hstY, _, _, _⟩ := ih2 hbad
      have hbady : resultStatusOf (runPipeline stages behaviors snapshot).results y
            = some StageStatus.fail ∨
          resultStatusOf (runPipeline stages behaviors snapshot).results y
            = some StageStatus.cancel := by
        right
        unfold resultStatusOf
        rw [hfY, Option.map_some', hstY]
      exact ih1 hbady

theorem c2_witness :
    (topoOrderedFrom [] chatStages = true ∧
        (chatStages.map (fun x => x.name)).Nodup ∧
        resultStatusOf (runPipeline chatStages enrichFailBehaviors demoSnapshot).results
          "profile_enrich" = some StageStatus.fail) ∧
      (∃ sB rb, sB ∈ chatStages ∧ sB.name = "persist" ∧
        findResult (runPipeline chatStages enrichFailBehaviors demoSnapshot).results
          "persist" = some rb ∧
        rb.status = StageStatus.cancel ∧ rb.startedAt = none ∧ rb.cascaded = true ∧
        ∃ d2, d2 ∈ sB.deps ∧
          (resultStatusOf (runPipeline chatStages enrichFailBehaviors demoSnapshot).results
              d2 = some StageStatus.fail ∨
            resultStatusOf (runPipeline chatStages enrichFailBehaviors demoSnapshot).results
              d2 = some StageStatus.cancel) ∧
          rb.reason = cascadeReason d2) := by
  refine ⟨⟨by decide, by decide, by decide⟩, ?_⟩
  have d1 : DependsOn chatStages "llm" "profile_enrich" :=
    DependsOn.direct
      ⟨"llm", StageKind.transform, ["input_guard", "profile_enrich", "summary_enrich"]⟩
      (by decide) "profile_enrich" (by decide)
  have d2 : DependsOn chatStages "output_guard" "llm" :=
    DependsOn.direct ⟨"output_guard", StageKind.guard, ["llm"]⟩ (by decide) "llm" (by decide)
  have d3 : DependsOn chatStages "persist" "output_guard" :=
    DependsOn.direct ⟨"persist", StageKind.work, ["output_guard"]⟩ (by decide)
      "output_guard" (by decide)
  exact c2_cascading_cancellation chatStages enrichFailBehaviors demoSnapshot (by decide)
    (by decide) "persist" "profile_enrich"
    (DependsOn.trans _ _ _ d3 (DependsOn.trans _ _ _ d2 d1)) (Or.inl (by decide))

/-- C3: in every run of a valid Pipeline Definition, no stage begins execution
before each of its declared dependencies has reached a terminal status —
equivalently, a stage's execution start timestamp never precedes the completion
timestamp of any of its declared dependencies. -/
theorem c3_no_start_before_deps (stages : List StageSpec)
    (behaviors : String → InputView → ExecResult) (snapshot : ContextSnapshot)
    (hT : topoOrderedFrom [] stages = true)
    (hN : (stages.map (fun x => x.name)).Nodup)
    (s : StageSpec) (hmem : s ∈ stages) (t : Nat)
    (hstart : startTimeOf (runPipeline stages behaviors snapshot).results s.name = some t)
    (d : String) (hd : d ∈ s.deps) :
    ∃ ft, finishTimeOf (runPipeline stages behaviors snapshot).results d = some ft ∧
      ft < t := by
  obtain ⟨pre, post, hsplit⟩ := List.append_of_mem hmem
  subst hsplit
  have hfind := final_entry behaviors snapshot pre s post hN
  have hstart2 : (stepResult behaviors snapshot
      (runStages behaviors snapshot pre ⟨[], 0⟩) s).startedAt = some t := by
    unfold startTimeOf at hstart
    rw [show findResult (runPipeline (pre ++ s :: post) behaviors snapshot).results s.name
        = some (stepResult behaviors snapshot (runStages behaviors snapshot pre ⟨[], 0⟩) s)
      from hfind] at hstart
    exact hstart
  obtain ⟨hteq, hall, hnb⟩ := stepResult_started behaviors snapshot _ s hstart2
  have hpres := List.all_eq_true.mp hall d hd
  obtain ⟨rd, hrd⟩ := Option.isSome_iff_exists.mp hpres
  have hclock := clockInv_run behaviors snapshot pre ⟨[], 0⟩ clockInv_init d rd hrd
  have hfinal : findResult (runPipeline (pre ++ s :: post) behaviors snapshot).results d
      = some rd := by
    show findResult (runStages behaviors snapshot (pre ++ s :: post) ⟨[], 0⟩).results d
      = some rd
    rw [runStages_split]
    exact runStages_stable behaviors snapshot (s :: post) _ hrd
  refine ⟨rd.finishedAt, ?_, ?_⟩
  · unfold finishTimeOf
    rw [hfinal, Option.map_some']
  · rw [hteq]
    exact hclock

theorem c3_witness :
    (topoOrderedFrom [] chatStages = true ∧
        (chatStages.map (fun x => x.name)).Nodup ∧
        (⟨"llm", StageKind.transform,
          ["input_guard", "profile_enrich", "summary_enrich"]⟩ : StageSpec) ∈ chatStages ∧
        startTimeOf (runPipeline chatStages allOkBehaviors demoSnapshot).results "llm"
          = some 6 ∧
        "input_guard" ∈ ["input_guard", "profile_enrich", "summary_enrich"]) ∧
      (∃ ft, finishTimeOf (runPipeline chatStages allOkBehaviors demoSnapshot).results
          "input_guard" = some ft ∧ ft < 6) :=
  ⟨⟨by decide, by decide, by decide, by decide, by decide⟩,
   c3_no_start_before_deps chatStages allOkBehaviors demoSnapshot (by decide) (by decide)
     ⟨"llm", StageKind.transform, ["input_guard", "profile_enrich", "summary_enrich"]⟩
     (by decide) 6 (by decide) "input_guard" (by decide)⟩

/-- C6: an exception uncaught by the stage itself never escapes the scheduler as
a raw exception — it is captured into a FAIL Stage Result recording the stage
name, elapsed time and whether the error was marked retryable, and only the
final aggregated run outcome (a run record or a single typed pipeline error) is
surfaced to the caller. -/
theorem c6_exception_wrapped (stages : List StageSpec)
    (behaviors : String → InputView → ExecResult) (snapshot : ContextSnapshot)
    (hN : (stages.map (fun x => x.name)).Nodup)
    (s : StageSpec) (hmem : s ∈ stages)
    (msg : String) (retr : Bool) (dur : Nat)
    (hb : ∀ v, behaviors s.name v = ExecResult.exn msg retr dur)
    (t : Nat)
    (hstart : startTimeOf (runPipeline stages behaviors snapshot).results s.name = some t) :
    findResult (runPipeline stages behaviors snapshot).results s.name
        = some (exnFailResult s.name msg retr dur t) ∧
      (exnFailResult s.name msg retr dur t).status = StageStatus.fail ∧
      (exnFailResult s.name msg retr dur t).reason = failWrapReason s.name msg ∧
      (exnFailResult s.name msg retr dur t).retryable = retr ∧
      (exnFailResult s.name msg retr dur t).durationMs = dur ∧
      ((∃ e, surfaceRun (runPipeline stages behaviors snapshot) = Except.error e) ∨
        surfaceRun (runPipeline stages behaviors snapshot)
          = Except.ok (runPipeline stages behaviors snapshot)) := by
  obtain ⟨pre, post, hsplit⟩ := List.append_of_mem hmem
  subst hsplit
  have hfind := final_entry behaviors snapshot pre s post hN
  have hstart2 : (stepResult behaviors snapshot
      (runStages behaviors snapshot pre ⟨[], 0⟩) s).startedAt = some t := by
    unfold startTimeOf at hstart
    rw [show findResult (runPipeline (pre ++ s :: post) behaviors snapshot).results s.name
        = some (stepResult behaviors snapshot (runStages behaviors snapshot pre ⟨[], 0⟩) s)
      from hfind] at hstart
    exact hstart
  obtain ⟨hteq, hall, hnb⟩ := stepResult_started behaviors snapshot _ s hstart2
  have hexec := stepResult_exec behaviors snapshot
    (runStages behaviors snapshot pre ⟨[], 0⟩) s hall hnb
  simp only [hb] at hexec
  refine ⟨?_, rfl, rfl, rfl, rfl,
    surfaceRun_shape (runPipeline (pre ++ s :: post) behaviors snapshot)⟩
  show findResult (runStages behaviors snapshot (pre ++ s :: post) ⟨[], 0⟩).results s.name
    = some (exnFailResult s.name msg retr dur t)
  rw [hfind, hexec, hteq]

theorem c6_witness :
    ((chatStages.map (fun x => x.name)).Nodup ∧
        (⟨"llm", StageKind.transform,
          ["input_guard", "profile_enrich", "summary_enrich"]⟩ : StageSpec) ∈ chatStages ∧
        (∀ v, llmRaisesBehaviors "llm" v = ExecResult.exn "provider timeout" true 7) ∧
        startTimeOf (runPipeline chatStages llmRaisesBehaviors demoSnapshot).results "llm"
          = some 6) ∧
      (findResult (runPipeline chatStages llmRaisesBehaviors demoSnapshot).results "llm"
          = some (exnFailResult "llm" "provider timeout" true 7 6) ∧
        (exnFailResult "llm" "provider timeout" true 7 6).status = StageStatus.fail ∧
        (exnFailResult "llm" "provider timeout" true 7 6).reason
          = failWrapReason "llm" "provider timeout" ∧
        (exnFailResult "llm" "provider timeout" true 7 6).retryable = true ∧
        (exnFailResult "llm" "provider timeout" true 7 6).durationMs = 7 ∧
        ((∃ e, surfaceRun (runPipeline chatStages llmRaisesBehaviors demoSnapshot)
            = Except.error e) ∨
          surfaceRun (runPipeline chatStages llmRaisesBehaviors demoSnapshot)
            = Except.ok (runPipeline chatStages llmRaisesBehaviors demoSnapshot))) :=
  ⟨⟨by decide, by decide, by intro v; simp [llmRaisesBehaviors], by decide⟩,
   c6_exception_wrapped chatStages llmRaisesBehaviors demoSnapshot (by decide)
     ⟨"llm", StageKind.transform, ["input_guard", "profile_enrich", "summary_enrich"]⟩
     (by decide) "provider timeout" true 7 (by intro v; simp [llmRaisesBehaviors]) 6
     (by decide)⟩

end HelloSales
